import Mathlib

/-!
# Track Team Portal — verification of the authorization / consistency layer

A shallow embedding, in Lean 4, of the row-level authorization model and the
assignment/result data-consistency rules of the Track Team Portal repository:

* the `profiles` row-level-security policies
  (`supabase/03_accounts_profiles_rls.sql`),
* the admin role gate (`app/api/admin/_auth.ts`, `requireCoachOrAssistant`),
* the assignments screen logic (`ensureMeetEvent`, `saveAssignment`,
  `deleteAssignment`),
* the results screen logic (`saveResult`, `deleteResult`),
* the admin account lifecycle routes (create / update / delete / list under
  `app/api/admin/accounts/`), together with the client-side validation in
  `app/app/accounts/AccountsClient.tsx`.

Database tables are modelled as Lean lists of rows; the PostgREST client's
single-statement operations (`select`, `insert`, `upsert`, `delete`) become
pure functions on those lists, with the uniqueness constraints of the schema
(`(meet_id, event_name)` on `meet_events`, `(meet_event_id, athlete_id)` on
`assignments` and on `results`, `user_id` on `profiles`) made explicit.
Everything is sequential: the claims under study are stated for sequences of
calls, matching the single-session ordering model of the application.
-/

namespace TrackPortal

/-- Identifiers (uuids in the source) are modelled as strings. -/
abbrev Id := String

/-- The closed role set of the portal. -/
inductive Role where
  | athlete
  | coach
  | assistant_coach
deriving DecidableEq, Repr

/-- The gender enumeration used for athlete profiles. -/
inductive Gender where
  | male
  | female
deriving DecidableEq, Repr

/-- A row of the `profiles` table (columns as selected by the admin account
routes: `user_id, full_name, role, gender, email, phone`).  Nullable columns
are `Option`-typed. -/
structure Profile where
  user_id : Id
  full_name : Option String
  role : Option Role
  gender : Option Gender
  email : Option String
  phone : Option String
deriving DecidableEq, Repr

/-! ## C1 — `profiles` row-level-security policy

From `supabase/03_accounts_profiles_rls.sql`.  The `using` predicate of the
`profiles_select_own_or_coach` policy is, for requester uid `auth.uid()` and
candidate row `row`:

    row.user_id = auth.uid()
    or exists (select 1 from profiles p
               where p.user_id = auth.uid()
                 and p.role in ('coach', 'assistant_coach'))

A `select` on the table returns exactly the rows whose predicate holds. -/

/-- The `using` predicate of policy `profiles_select_own_or_coach`, evaluated
against the whole `profiles` table (the `exists` sub-select ranges over it). -/
def profilesSelectUsing (table : List Profile) (uid : Id) (row : Profile) : Bool :=
  row.user_id == uid ||
    table.any (fun p =>
      p.user_id == uid &&
        (p.role == some Role.coach || p.role == some Role.assistant_coach))

/-- The rows a requester with principal id `uid` receives from a `select` on
`profiles` under row-level security: every row passing the policy predicate. -/
def profilesSelect (table : List Profile) (uid : Id) : List Profile :=
  table.filter (profilesSelectUsing table uid)

/-- The requester's own stored role: the `role` column of the `profiles` row
whose `user_id` equals the requester's principal id (if any). -/
def requesterRole (table : List Profile) (uid : Id) : Option Role :=
  (table.find? (fun p => p.user_id == uid)).bind (fun p => p.role)

/-- One-profile-per-principal: no two distinct rows of the table share a
`user_id` (the `user_id` primary-key constraint of `profiles`). -/
def OneProfilePerPrincipal (table : List Profile) : Prop :=
  ∀ p ∈ table, ∀ q ∈ table, p.user_id = q.user_id → p = q

theorem coach_exists_iff (table : List Profile) (uid : Id)
    (hone : OneProfilePerPrincipal table) :
    (table.any (fun p =>
        p.user_id == uid &&
          (p.role == some Role.coach || p.role == some Role.assistant_coach)) = true)
      ↔ (requesterRole table uid = some Role.coach ∨
         requesterRole table uid = some Role.assistant_coach) := by
  constructor
  · intro h
    obtain ⟨q, hq, hpred⟩ := List.any_eq_true.mp h
    have hqid : q.user_id = uid := by
      have := (Bool.and_eq_true _ _).mp hpred |>.1
      exact beq_iff_eq.mp this
    have hqrole : q.role = some Role.coach ∨ q.role = some Role.assistant_coach := by
      have := (Bool.and_eq_true _ _).mp hpred |>.2
      rcases (Bool.or_eq_true _ _).mp this with h' | h'
      · exact Or.inl (beq_iff_eq.mp h')
      · exact Or.inr (beq_iff_eq.mp h')
    have hfind : ∃ p, table.find? (fun p => p.user_id == uid) = some p := by
      cases hf : table.find? (fun p => p.user_id == uid) with
      | some p => exact ⟨p, rfl⟩
      | none =>
          exfalso
          have := List.find?_eq_none.mp hf q hq
          simp [hqid] at this
    obtain ⟨p, hp⟩ := hfind
    have hpmem : p ∈ table := List.mem_of_find?_eq_some hp
    have hpid' := List.find?_some hp
    have hpid : p.user_id = uid := by simpa using hpid'
    have hpq : p = q := hone p hpmem q hq (hpid.trans hqid.symm)
    unfold requesterRole
    rw [hp, hpq]
    rcases hqrole with h' | h'
    · exact Or.inl (by simp [h'])
    · exact Or.inr (by simp [h'])
  · intro h
    have hfind : ∃ p, table.find? (fun p => p.user_id == uid) = some p ∧
        (p.role = some Role.coach ∨ p.role = some Role.assistant_coach) := by
      rcases h with h' | h' <;>
      · unfold requesterRole at h'
        cases hf : table.find? (fun p => p.user_id == uid) with
        | some p =>
            refine ⟨p, rfl, ?_⟩
            rw [hf] at h'
            simp at h'
            simp [h']
        | none => rw [hf] at h'; simp at h'
    obtain ⟨p, hp, hprole⟩ := hfind
    refine List.any_eq_true.mpr ⟨p, List.mem_of_find?_eq_some hp, ?_⟩
    have hpid := List.find?_some hp
    rcases hprole with h' | h' <;> simp [hpid, h']

/-- **C1.** For every profile row `P` and requester `R`, the profile read
check permits the read if and only if `R`'s principal id equals `P`'s
principal id, or `R`'s own profile row has role coach or assistant_coach;
every other read is denied (the row is not returned by the select). -/
theorem profiles_select_own_or_coach_iff (table : List Profile) (uid : Id)
    (row : Profile) (hone : OneProfilePerPrincipal table) (hrow : row ∈ table) :
    row ∈ profilesSelect table uid ↔
      (row.user_id = uid ∨
       requesterRole table uid = some Role.coach ∨
       requesterRole table uid = some Role.assistant_coach) := by
  unfold profilesSelect
  rw [List.mem_filter]
  constructor
  · rintro ⟨-, hpred⟩
    unfold profilesSelectUsing at hpred
    rcases (Bool.or_eq_true _ _).mp hpred with h' | h'
    · exact Or.inl (beq_iff_eq.mp h')
    · exact Or.inr ((coach_exists_iff table uid hone).mp h')
  · intro h
    refine ⟨hrow, ?_⟩
    unfold profilesSelectUsing
    rcases h with h' | h'
    · simp [h']
    · have := (coach_exists_iff table uid hone).mpr h'
      simp [this]

/-- Witness for C1: in a concrete two-row table, the coach reads the
athlete's row. -/
theorem profiles_select_own_or_coach_iff_witness :
    let coachRow : Profile :=
      ⟨"c1", some "Coach", some Role.coach, none, some "c@x.co", none⟩
    let athleteRow : Profile :=
      ⟨"a1", some "Ath", some Role.athlete, some Gender.male, none, none⟩
    let table := [coachRow, athleteRow]
    athleteRow ∈ profilesSelect table "c1" :=
  (profiles_select_own_or_coach_iff _ "c1" _
      (by unfold OneProfilePerPrincipal; decide) (by decide)).mpr
    (Or.inr (Or.inl (by decide)))

/-! ## C10 — admin role gate

From `app/api/admin/_auth.ts`, `requireCoachOrAssistant`: resolve the current
user from the session; with no user answer 401 Unauthorized; otherwise look up
the requester's `profiles` row (`maybeSingle` on `user_id`), default a missing
row or null role to `"athlete"`, and answer 403 Forbidden unless the role is
coach or assistant_coach. -/

/-- Outcome of `requireCoachOrAssistant`: 401, 403, or pass with the
resolved role. -/
inductive GateOutcome where
  | unauthorized
  | forbidden
  | allowed (role : Role)
deriving DecidableEq, Repr

/-- `requireCoachOrAssistant`, over the session's resolved principal id (if
any) and the `profiles` table. -/
def requireCoachOrAssistant (user : Option Id) (profiles : List Profile) :
    GateOutcome :=
  match user with
  | none => GateOutcome.unauthorized
  | some uid =>
    let profileRole := (profiles.find? (fun p => p.user_id == uid)).bind
      (fun p => p.role)
    let role := profileRole.getD Role.athlete
    if role == Role.coach || role == Role.assistant_coach then
      GateOutcome.allowed role
    else
      GateOutcome.forbidden

/-- **C10.** The admin gate is fail-closed: no resolvable principal is
rejected Unauthorized; a principal with no Profile row defaults to role
athlete and is rejected Forbidden; and the gate passes exactly the principals
whose own stored Profile row carries role coach or assistant_coach. -/
theorem requireCoachOrAssistant_fail_closed (profiles : List Profile) :
    requireCoachOrAssistant none profiles = GateOutcome.unauthorized ∧
    (∀ uid : Id, profiles.find? (fun p => p.user_id == uid) = none →
      requireCoachOrAssistant (some uid) profiles = GateOutcome.forbidden) ∧
    (∀ uid : Id,
      (∃ r, requireCoachOrAssistant (some uid) profiles = GateOutcome.allowed r)
        ↔ (∃ p, profiles.find? (fun p => p.user_id == uid) = some p ∧
            (p.role = some Role.coach ∨ p.role = some Role.assistant_coach))) := by
  refine ⟨rfl, ?_, ?_⟩
  · intro uid hnone
    simp [requireCoachOrAssistant, hnone]
  · intro uid
    constructor
    · intro ⟨r, hr⟩
      simp only [requireCoachOrAssistant] at hr
      cases hf : profiles.find? (fun p => p.user_id == uid) with
      | none => simp [hf] at hr
      | some p =>
          refine ⟨p, rfl, ?_⟩
          cases hrole : p.role with
          | none => simp [hf, hrole] at hr
          | some r' =>
              simp only [hf, hrole] at hr
              cases r' <;> simp_all
    · rintro ⟨p, hp, hrole⟩
      rcases hrole with h' | h' <;> simp [requireCoachOrAssistant, hp, h']

/-- Witness for C10: in a concrete one-row table, a principal with no
profile row is rejected Forbidden. -/
theorem requireCoachOrAssistant_fail_closed_witness :
    requireCoachOrAssistant (some "ghost")
      [⟨"c1", some "Coach", some Role.coach, none, none, none⟩] =
      GateOutcome.forbidden :=
  (requireCoachOrAssistant_fail_closed _).2.1 "ghost" (by decide)

/-! ## Assignments — `assignments` table and the upsert save path

From the assignments screens (`src/unnamed/part_006` and
`app/app/assignments/page.tsx`).  Both save paths write with

    supabase.from("assignments").upsert(
      { meet_event_id, athlete_id, status },
      { onConflict: "meet_event_id,athlete_id" })

i.e. PostgreSQL `INSERT ... ON CONFLICT (meet_event_id, athlete_id) DO
UPDATE`: when a row for the pair exists its `status` is overwritten in place,
otherwise a fresh row is inserted. -/

/-- A row of the `assignments` table. -/
structure AssignmentRow where
  id : Nat
  meet_event_id : Id
  athlete_id : Id
  status : String
deriving DecidableEq, Repr

/-- The `assignments` table plus the id sequence feeding fresh primary
keys. -/
structure AssignmentsDb where
  rows : List AssignmentRow
  nextId : Nat
deriving DecidableEq, Repr

/-- Does a row belong to the given (event occurrence, athlete) pair? -/
def isPairRow (meId aid : Id) (r : AssignmentRow) : Bool :=
  r.meet_event_id == meId && r.athlete_id == aid

/-- The rows of the table for one (event occurrence, athlete) pair. -/
def pairRows (db : AssignmentsDb) (meId aid : Id) : List AssignmentRow :=
  db.rows.filter (isPairRow meId aid)

/-- The assignment upsert keyed on `(meet_event_id, athlete_id)`: update the
conflicting row's status in place, or insert a fresh row. Returns the written
row (the `.select().single()` of the source) and the new table state. -/
def upsertAssignment (db : AssignmentsDb) (meId aid : Id) (status : String) :
    AssignmentRow × AssignmentsDb :=
  match db.rows.find? (isPairRow meId aid) with
  | some r =>
      let r' : AssignmentRow := { r with status := status }
      (r', { db with
             rows := db.rows.map (fun x => if isPairRow meId aid x then
               { x with status := status } else x) })
  | none =>
      let r : AssignmentRow := ⟨db.nextId, meId, aid, status⟩
      (r, { rows := db.rows ++ [r], nextId := db.nextId + 1 })

/-- Run a sequence of `upsertAssignment` calls for one pair, in order. -/
def runUpserts (db : AssignmentsDb) (meId aid : Id) (statuses : List String) :
    AssignmentsDb :=
  statuses.foldl (fun d s => (upsertAssignment d meId aid s).2) db

/-- The uniqueness constraint of the schema for one pair: at most one
`assignments` row for `(meet_event_id, athlete_id)`. -/
def PairUnique (db : AssignmentsDb) (meId aid : Id) : Prop :=
  (pairRows db meId aid).length ≤ 1

theorem filter_map_pair (rows : List AssignmentRow) (meId aid : Id)
    (status : String) :
    (rows.map (fun x => if isPairRow meId aid x then
        { x with status := status } else x)).filter (isPairRow meId aid) =
      (rows.filter (isPairRow meId aid)).map
        (fun x => { x with status := status }) := by
  induction rows with
  | nil => rfl
  | cons r rest ih =>
      by_cases h : isPairRow meId aid r = true
      · have h' : isPairRow meId aid { r with status := status } = true := by
          simp [isPairRow] at h ⊢; exact h
        simp [h, h', ih]
      · have hfalse : isPairRow meId aid r = false := by
          simpa using h
        simp [hfalse, ih]

theorem pairRows_upsert (db : AssignmentsDb) (meId aid : Id) (status : String)
    (hu : PairUnique db meId aid) :
    pairRows (upsertAssignment db meId aid status).2 meId aid =
      [⟨((upsertAssignment db meId aid status).1).id, meId, aid, status⟩] := by
  unfold upsertAssignment
  cases hf : db.rows.find? (isPairRow meId aid) with
  | none =>
      have hnone : db.rows.filter (isPairRow meId aid) = [] := by
        rw [List.filter_eq_nil_iff]
        intro x hx
        exact (List.find?_eq_none.mp hf) x hx
      simp only [pairRows]
      simp only [List.filter_append, hnone, List.nil_append]
      have : isPairRow meId aid ⟨db.nextId, meId, aid, status⟩ = true := by
        simp [isPairRow]
      simp [this]
  | some r =>
      have hmem : r ∈ db.rows := List.mem_of_find?_eq_some hf
      have hpr := List.find?_some hf
      have hmemf : r ∈ db.rows.filter (isPairRow meId aid) :=
        List.mem_filter.mpr ⟨hmem, hpr⟩
      have hone : db.rows.filter (isPairRow meId aid) = [r] := by
        have hlen := hu
        unfold PairUnique pairRows at hlen
        cases hfil : db.rows.filter (isPairRow meId aid) with
        | nil => rw [hfil] at hmemf; cases hmemf
        | cons a rest =>
            rw [hfil] at hlen hmemf
            cases rest with
            | nil =>
                have : r = a := by
                  rcases List.mem_singleton.mp hmemf with h
                  exact h
                rw [this]
            | cons b rest' => simp at hlen
      simp only [pairRows]
      rw [filter_map_pair, hone]
      have hid : r.meet_event_id = meId ∧ r.athlete_id = aid := by
        unfold isPairRow at hpr
        constructor
        · exact beq_iff_eq.mp ((Bool.and_eq_true _ _).mp hpr).1
        · exact beq_iff_eq.mp ((Bool.and_eq_true _ _).mp hpr).2
      simp [hid.1, hid.2]

theorem pairUnique_upsert (db : AssignmentsDb) (meId aid : Id)
    (status : String) (hu : PairUnique db meId aid) :
    PairUnique (upsertAssignment db meId aid status).2 meId aid := by
  unfold PairUnique
  rw [pairRows_upsert db meId aid status hu]
  simp

theorem pairUnique_runUpserts (db : AssignmentsDb) (meId aid : Id)
    (statuses : List String) (hu : PairUnique db meId aid) :
    PairUnique (runUpserts db meId aid statuses) meId aid := by
  induction statuses generalizing db with
  | nil => exact hu
  | cons s rest ih =>
      unfold runUpserts
      simp only [List.foldl_cons]
      exact ih _ (pairUnique_upsert db meId aid s hu)

/-- **C2.** For every (event occurrence, athlete) pair, after any finite
sequence of assignment-save upsert calls for that pair (here `init ++ [s]`,
so the most recent call carries status `s`), exactly one Assignment row
exists for the pair and its status equals `s` — in particular at most one row
exists and it holds the most recent status. -/
theorem upsertAssignment_sequence (db : AssignmentsDb) (meId aid : Id)
    (init : List String) (s : String) (hu : PairUnique db meId aid) :
    (pairRows (runUpserts db meId aid (init ++ [s])) meId aid).map
        (fun r => r.status) = [s] := by
  have hu' := pairUnique_runUpserts db meId aid init hu
  unfold runUpserts at hu' ⊢
  rw [List.foldl_append]
  simp only [List.foldl_cons, List.foldl_nil]
  rw [pairRows_upsert _ meId aid s hu']
  rfl

/-- Witness for C2: three upserts on an initially empty table leave one row
whose status is the last written one. -/
theorem upsertAssignment_sequence_witness :
    (pairRows (runUpserts ⟨[], 0⟩ "me1" "a1" ["assigned", "alternate", "assigned"])
        "me1" "a1").map (fun r => r.status) = ["assigned"] :=
  upsertAssignment_sequence ⟨[], 0⟩ "me1" "a1" ["assigned", "alternate"]
    "assigned" (by unfold PairUnique pairRows; decide)

/-! ## C5 — outcome reporting of the assignment save

From `src/unnamed/part_006`, `saveAssignment` (lines 339–423): the save
pre-checks the existing assignment for the pair, performs the upsert, and
then — only `if (existingRow)` — sets a notice: "No changes made…" when the
(lowercased, trimmed) statuses coincide, or "Assignment updated: status
changed from …" otherwise.  No notice is set when no prior row existed. -/

/-- JS `String#trim`, modelled on the character list: drop leading and
trailing whitespace. -/
def trimChars (cs : List Char) : List Char :=
  ((cs.dropWhile Char.isWhitespace).reverse.dropWhile Char.isWhitespace).reverse

/-- JS `s.trim()`. -/
def jsTrim (s : String) : String := String.mk (trimChars s.data)

/-- JS `s.toLowerCase().trim()` (ASCII lowering, as used on the status
strings of the source). -/
def jsLowerTrim (s : String) : String :=
  jsTrim (String.mk (s.data.map Char.toLower))

/-- The notice the assignment save surfaces to its caller. -/
inductive SaveNotice where
  | unchanged (status : String)
  | updated (oldStatus newStatus : String)
deriving DecidableEq, Repr

/-- Result of one `saveAssignment` call: the written row, the notice (if
any), and the new table state. -/
structure SaveAssignmentOut where
  row : AssignmentRow
  notice : Option SaveNotice
  db : AssignmentsDb
deriving Repr

/-- `saveAssignment` from `src/unnamed/part_006`: pre-check the existing
assignment for the (meet event, athlete) pair, upsert, and compute the
notice. `prevStatus` / `nextStatus` are the lowercased, trimmed statuses of
the source. -/
def saveAssignment (db : AssignmentsDb) (meId aid : Id) (status : String) :
    SaveAssignmentOut :=
  let existingRow := db.rows.find? (isPairRow meId aid)
  let prevStatus := jsLowerTrim ((existingRow.map (fun r => r.status)).getD "")
  let nextStatus := jsLowerTrim status
  let up := upsertAssignment db meId aid status
  let notice : Option SaveNotice :=
    match existingRow with
    | some _ =>
        if prevStatus == nextStatus then some (SaveNotice.unchanged nextStatus)
        else some (SaveNotice.updated prevStatus nextStatus)
    | none => none
  ⟨up.1, notice, up.2⟩

/-- Counterexample to C5 as stated: a save with no prior Assignment row for
the pair reports no outcome at all — there is no 'created' report. -/
theorem saveAssignment_no_created_report :
    (saveAssignment ⟨[], 0⟩ "me1" "a1" "assigned").notice = none := by
  decide

/-- **C5 (amended).** The assignment save reports an outcome only when a
prior row existed: 'unchanged' when the prior row's status is identical
(after lowercasing and trimming), 'updated' — with both the old and the new
normalized status — when it changed; when no prior row existed the save
completes without reporting any outcome. -/
theorem saveAssignment_notice (db : AssignmentsDb) (meId aid : Id)
    (status : String) :
    (db.rows.find? (isPairRow meId aid) = none →
      (saveAssignment db meId aid status).notice = none) ∧
    (∀ r, db.rows.find? (isPairRow meId aid) = some r →
      jsLowerTrim r.status = jsLowerTrim status →
      (saveAssignment db meId aid status).notice =
        some (SaveNotice.unchanged (jsLowerTrim status))) ∧
    (∀ r, db.rows.find? (isPairRow meId aid) = some r →
      jsLowerTrim r.status ≠ jsLowerTrim status →
      (saveAssignment db meId aid status).notice =
        some (SaveNotice.updated (jsLowerTrim r.status)
          (jsLowerTrim status))) := by
  refine ⟨?_, ?_, ?_⟩
  · intro hf
    simp [saveAssignment, hf]
  · intro r hf heq
    simp [saveAssignment, hf, heq]
  · intro r hf hne
    simp [saveAssignment, hf, hne]

/-- Witness for C5 (amended): a save over a one-row table with a different
status reports 'updated' with the old and new statuses. -/
theorem saveAssignment_notice_witness :
    (saveAssignment ⟨[⟨7, "me1", "a1", "assigned"⟩], 8⟩ "me1" "a1"
      "Alternate").notice =
      some (SaveNotice.updated "assigned" "alternate") :=
  (saveAssignment_notice ⟨[⟨7, "me1", "a1", "assigned"⟩], 8⟩ "me1" "a1"
      "Alternate").2.2 ⟨7, "me1", "a1", "assigned"⟩ (by decide) (by decide)

/-! ## C4 — event-occurrence resolution (`ensureMeetEvent`)

From `src/unnamed/part_006`, `ensureMeetEvent(meetId, eventName)`:

1. look the key `` `${meetId}__${eventName}` `` up in the client cache
   `meetEventByKey` (a `Map` built from the `meetEvents` list, keyed by
   `` `${me.meet_id}__${safeMeetEventName(me)}` ``, skipping empty names;
   later list entries override earlier ones);
2. on a cache miss, `select … .eq("meet_id", meetId).eq("event_name",
   eventName).maybeSingle()` against the `meet_events` table, and prepend the
   found row to `meetEvents` unless a row with its id is already present;
3. otherwise `insert { meet_id, event_name }` and prepend the created row. -/

/-- A row of `meet_events` as selected by the assignments screen
(`id, meet_id, event_name, event_id, events(name)`); `events_name` is the
joined `events.name`. -/
structure MeetEventRow where
  id : Nat
  meet_id : Id
  event_name : Option String
  events_name : Option String
deriving DecidableEq, Repr

/-- `safeMeetEventName`: `(me?.events?.name ?? me?.event_name ?? "").trim()`. -/
def safeMeetEventName (me : MeetEventRow) : String :=
  jsTrim ((me.events_name.or me.event_name).getD "")

/-- The cache key of `ensureMeetEvent`: `` `${meetId}__${eventName}` ``. -/
def meKey (meetId : Id) (eventName : String) : String :=
  meetId ++ "__" ++ eventName

/-- Does a `meetEvents` entry occupy `key` in the `meetEventByKey` map
(nonempty safe name, and its own key equals `key`)? -/
def cacheMatches (key : String) (me : MeetEventRow) : Bool :=
  let n := safeMeetEventName me
  !(n == "") && ((me.meet_id ++ "__" ++ n) == key)

/-- One step of building `meetEventByKey`: a matching entry overrides the
accumulated binding for `key`. -/
def cacheStep (key : String) (acc : Option MeetEventRow) (me : MeetEventRow) :
    Option MeetEventRow :=
  if cacheMatches key me then some me else acc

/-- `meetEventByKey.get(key)`: the binding left by inserting the entries of
`meetEvents` in order (later entries override). -/
def cacheGet (meetEvents : List MeetEventRow) (key : String) :
    Option MeetEventRow :=
  meetEvents.foldl (cacheStep key) none

/-- The `meet_events` lookup of step 2:
`.eq("meet_id", meetId).eq("event_name", eventName).maybeSingle()`. -/
def findDb (db : List MeetEventRow) (meetId : Id) (eventName : String) :
    Option MeetEventRow :=
  db.find? (fun r => r.meet_id == meetId && r.event_name == some eventName)

/-- Client + database state touched by `ensureMeetEvent`: the `meetEvents`
cache list, the `meet_events` table, and the table's id sequence. -/
structure MeetEventsState where
  meetEvents : List MeetEventRow
  db : List MeetEventRow
  nextId : Nat
deriving DecidableEq, Repr

/-- `ensureMeetEvent` from `src/unnamed/part_006` (lines 307–337). -/
def ensureMeetEvent (st : MeetEventsState) (meetId : Id) (eventName : String) :
    MeetEventRow × MeetEventsState :=
  let key := meKey meetId eventName
  match cacheGet st.meetEvents key with
  | some cached => (cached, st)
  | none =>
    match findDb st.db meetId eventName with
    | some row =>
        (row, { st with meetEvents :=
          if st.meetEvents.any (fun x => x.id == row.id) then st.meetEvents
          else row :: st.meetEvents })
    | none =>
        let row : MeetEventRow := ⟨st.nextId, meetId, some eventName, none⟩
        (row, { meetEvents := row :: st.meetEvents,
                db := st.db ++ [row],
                nextId := st.nextId + 1 })

theorem foldl_cacheStep_some (key : String) (l : List MeetEventRow)
    (x : MeetEventRow) : ∃ y, l.foldl (cacheStep key) (some x) = some y := by
  induction l generalizing x with
  | nil => exact ⟨x, rfl⟩
  | cons me rest ih =>
      simp only [List.foldl_cons, cacheStep]
      by_cases h : cacheMatches key me = true
      · rw [if_pos h]; exact ih me
      · rw [if_neg h]; exact ih x

theorem cacheGet_none_no_match (l : List MeetEventRow) (key : String)
    (h : cacheGet l key = none) : ∀ me ∈ l, cacheMatches key me = false := by
  induction l with
  | nil => intro me hme; cases hme
  | cons a rest ih =>
      intro me hme
      unfold cacheGet at h
      simp only [List.foldl_cons] at h
      have ha : cacheMatches key a = false := by
        by_cases hm : cacheMatches key a = true
        · exfalso
          rw [cacheStep, if_pos hm] at h
          obtain ⟨y, hy⟩ := foldl_cacheStep_some key rest a
          rw [hy] at h
          cases h
        · simpa using hm
      have hrest : cacheGet rest key = none := by
        unfold cacheGet
        rw [cacheStep, if_neg (by simp [ha])] at h
        exact h
      rcases List.mem_cons.mp hme with h' | h'
      · rw [h']; exact ha
      · exact ih hrest me h'

theorem foldl_cacheStep_id (key : String) (l : List MeetEventRow)
    (acc : Option MeetEventRow)
    (h : ∀ me ∈ l, cacheMatches key me = false) :
    l.foldl (cacheStep key) acc = acc := by
  induction l generalizing acc with
  | nil => rfl
  | cons a rest ih =>
      simp only [List.foldl_cons, cacheStep]
      rw [if_neg (by simp [h a (by simp)])]
      exact ih acc (fun me hme => h me (by simp [hme]))

theorem cacheGet_cons (l : List MeetEventRow) (key : String)
    (row : MeetEventRow) (h : cacheGet l key = none) :
    cacheGet (row :: l) key = cacheStep key none row := by
  unfold cacheGet
  simp only [List.foldl_cons]
  exact foldl_cacheStep_id key l _ (cacheGet_none_no_match l key h)

/-- **C4.** Event-occurrence resolution is idempotent: resolving the same
(meet, event name) key twice never creates a second `meet_events` row — the
second resolution returns exactly the row the first one produced, and leaves
the state untouched. -/
theorem ensureMeetEvent_idempotent (st : MeetEventsState) (meetId : Id)
    (eventName : String) :
    (ensureMeetEvent (ensureMeetEvent st meetId eventName).2 meetId
        eventName).1 = (ensureMeetEvent st meetId eventName).1 ∧
    (ensureMeetEvent (ensureMeetEvent st meetId eventName).2 meetId
        eventName).2 = (ensureMeetEvent st meetId eventName).2 := by
  cases hc : cacheGet st.meetEvents (meKey meetId eventName) with
  | some cached =>
      constructor <;> simp [ensureMeetEvent, hc]
  | none =>
      cases hd : findDb st.db meetId eventName with
      | some row =>
          have h1 : ensureMeetEvent st meetId eventName =
              (row, { st with meetEvents :=
                if st.meetEvents.any (fun x => x.id == row.id) then
                  st.meetEvents else row :: st.meetEvents }) := by
            simp [ensureMeetEvent, hc, hd]
          by_cases hany : st.meetEvents.any (fun x => x.id == row.id) = true
      -- the found row was already cached by id: the state is unchanged and
      -- the second call goes through the same select branch
          · rw [h1]
            simp only [hany, if_pos]
            constructor <;> simp [ensureMeetEvent, hc, hd, hany]
      -- the found row is prepended; the second call either hits the cache on
      -- it or re-selects it, and in both cases adds nothing
          · rw [h1]
            simp only [Bool.not_eq_true] at hany
            simp only [hany, if_neg, Bool.false_eq_true, not_false_iff]
            have hcons := cacheGet_cons st.meetEvents
              (meKey meetId eventName) row hc
            cases hstep : cacheStep (meKey meetId eventName) none row with
            | some y =>
                have hy : y = row := by
                  unfold cacheStep at hstep
                  by_cases hm : cacheMatches (meKey meetId eventName) row = true
                  · rw [if_pos hm] at hstep; cases hstep; rfl
                  · rw [if_neg hm] at hstep; cases hstep
                subst hy
                constructor <;>
                  simp [ensureMeetEvent, hcons.trans hstep]
            | none =>
                have hget : cacheGet (row :: st.meetEvents)
                    (meKey meetId eventName) = none := hcons.trans hstep
                have hdb : findDb (st.db) meetId eventName = some row := hd
                have hany2 : (row :: st.meetEvents).any
                    (fun x => x.id == row.id) = true := by
                  simp
                constructor <;>
                  simp [ensureMeetEvent, hget, hd, hany2]
      | none =>
          have h1 : ensureMeetEvent st meetId eventName =
              (⟨st.nextId, meetId, some eventName, none⟩,
               { meetEvents := ⟨st.nextId, meetId, some eventName, none⟩ ::
                   st.meetEvents,
                 db := st.db ++ [⟨st.nextId, meetId, some eventName, none⟩],
                 nextId := st.nextId + 1 }) := by
            simp [ensureMeetEvent, hc, hd]
          rw [h1]
          set row : MeetEventRow := ⟨st.nextId, meetId, some eventName, none⟩
            with hrow
          have hcons := cacheGet_cons st.meetEvents
            (meKey meetId eventName) row hc
          have hdbfind : findDb (st.db ++ [row]) meetId eventName = some row := by
            unfold findDb at hd ⊢
            rw [List.find?_append, hd]
            simp [hrow]
          cases hstep : cacheStep (meKey meetId eventName) none row with
          | some y =>
              have hy : y = row := by
                unfold cacheStep at hstep
                by_cases hm : cacheMatches (meKey meetId eventName) row = true
                · rw [if_pos hm] at hstep; cases hstep; rfl
                · rw [if_neg hm] at hstep; cases hstep
              subst hy
              constructor <;> simp [ensureMeetEvent, hcons.trans hstep]
          | none =>
              have hget : cacheGet (row :: st.meetEvents)
                  (meKey meetId eventName) = none := hcons.trans hstep
              have hany2 : (row :: st.meetEvents).any
                  (fun x => x.id == row.id) = true := by simp
              constructor <;>
                simp [ensureMeetEvent, hget, hdbfind, hany2]

/-! ## Results — `results` table, `saveResult` and `deleteResult`

From `src/unnamed/part_012` (lines 394–459).  `saveResult` builds a payload
without an `id` and calls `supabase.from("results").upsert(payload)` with no
`onConflict` option: the upsert's conflict target is then the primary key,
the inserted row receives a fresh id, so the statement acts as a plain
insert, and the schema's uniqueness constraint
`results_meet_event_id_athlete_id_key` on `(meet_event_id, athlete_id)`
rejects a duplicate pair with PostgreSQL error code 23505.  The error handler
maps that constraint violation to the user-facing duplicate-result message
and leaves the table unchanged. -/

/-- `pat.isPrefixOf`-style check on character lists, used to model JS
`String#includes`. -/
def leadsWith : List Char → List Char → Bool
  | [], _ => true
  | _ :: _, [] => false
  | p :: ps, c :: cs => p == c && leadsWith ps cs

/-- Does the pattern occur (contiguously) inside the list? -/
def occursAt : List Char → List Char → Bool
  | pat, [] => leadsWith pat []
  | pat, c :: cs => leadsWith pat (c :: cs) || occursAt pat cs

/-- JS `s.includes(pat)`. -/
def strContains (s pat : String) : Bool := occursAt pat.data s.data

/-- Value of a digit list read in base 10. -/
def digitsToNat (ds : List Char) : Nat :=
  ds.foldl (fun n c => n * 10 + (c.toNat - 48)) 0

/-- JS `Number(s)` restricted to finite outcomes: `some q` when `s` is
(after whitespace trimming) a finite decimal numeral — optional sign, digits,
optional decimal point — or empty (JS coerces `""` to `0`); `none` when the
result would be `NaN` or infinite.  The exotic JS numeral forms (exponents,
hex/octal/binary) are outside the inputs this development reasons about. -/
def jsFiniteNumber (s : String) : Option Rat :=
  let t := trimChars s.data
  if t.isEmpty then some 0
  else
    let signRest : Rat × List Char :=
      match t with
      | '-' :: cs => (-1, cs)
      | '+' :: cs => (1, cs)
      | cs => (1, cs)
    let sign := signRest.1
    let rest := signRest.2
    let intDigits := rest.takeWhile Char.isDigit
    let rest2 := rest.dropWhile Char.isDigit
    match rest2 with
    | [] =>
        if intDigits.isEmpty then none
        else some (sign * (digitsToNat intDigits : Rat))
    | '.' :: fracPart =>
        let fracDigits := fracPart.takeWhile Char.isDigit
        let rest3 := fracPart.dropWhile Char.isDigit
        if rest3.isEmpty && !(intDigits.isEmpty && fracDigits.isEmpty) then
          some (sign * ((digitsToNat intDigits : Rat) +
            (digitsToNat fracDigits : Rat) / ((10 : Rat) ^ fracDigits.length)))
        else none
    | _ => none

/-- The `place`/`points` normalization of `saveResult`:
`x.trim() === "" ? null : Number(x)` followed by
`Number.isFinite(v) ? v : null`. -/
def normalizeNumeric (s : String) : Option Rat :=
  if jsTrim s == "" then none else jsFiniteNumber s

/-- A row of the `results` table. -/
structure ResultRow where
  id : Nat
  meet_event_id : Id
  athlete_id : Id
  mark : Option String
  place : Option Rat
  points : Option Rat
  notes : Option String
deriving DecidableEq, Repr

/-- The `results` table plus its id sequence. -/
structure ResultsDb where
  rows : List ResultRow
  nextId : Nat
deriving DecidableEq, Repr

/-- A database error as surfaced by the client (`code` and `message`). -/
structure DbErr where
  code : String
  msg : String
deriving DecidableEq, Repr

/-- The PostgreSQL uniqueness-violation error for the
`(meet_event_id, athlete_id)` constraint of `results`. -/
def uniqueViolationErr : DbErr :=
  ⟨"23505",
   "duplicate key value violates unique constraint \"results_meet_event_id_athlete_id_key\""⟩

/-- Does a `results` row belong to the given (event occurrence, athlete)
pair? -/
def isResultPairRow (meId aid : Id) (r : ResultRow) : Bool :=
  r.meet_event_id == meId && r.athlete_id == aid

/-- The `results` write of `saveResult`: an id-less upsert whose conflict
target is the primary key, hence an insert of a fresh row; the pair
uniqueness constraint rejects a duplicate with error 23505. -/
def dbInsertResult (db : ResultsDb) (meId aid : Id) (mark : Option String)
    (place points : Option Rat) (notes : Option String) :
    Except DbErr ResultsDb :=
  if db.rows.any (isResultPairRow meId aid) then
    Except.error uniqueViolationErr
  else
    Except.ok ⟨db.rows ++ [⟨db.nextId, meId, aid, mark, place, points, notes⟩],
      db.nextId + 1⟩

/-- The error classification of `saveResult`: code 23505, or a message
naming the pair constraint, or the lowercased message containing the
duplicate-key phrase. -/
def isDuplicateResultError (code msg : String) : Bool :=
  code == "23505" ||
  strContains msg "results_meet_event_id_athlete_id_key" ||
  strContains (String.mk (msg.data.map Char.toLower))
    "duplicate key value violates unique constraint"

/-- The user-facing duplicate-result message of `saveResult`. -/
def duplicateResultMessage : String :=
  "This athlete already has a result recorded for this event. If you need to change it, delete the existing result below and then re-enter the updated mark."

/-- The fallback error message of `saveResult`. -/
def fallbackSaveMessage : String := "Unable to save result. Please try again."

/-- Outcome of one `saveResult` call: saved (fields cleared, list reloaded),
or failed with the surfaced error message; the table is unchanged on
failure. -/
inductive SaveResultOut where
  | saved (db : ResultsDb)
  | failed (errorMsg : String) (db : ResultsDb)
deriving DecidableEq, Repr

/-- `saveResult` from `src/unnamed/part_012` (lines 394–445): normalize the
form fields, attempt the write, and map a uniqueness violation to the
duplicate-result message. -/
def saveResult (db : ResultsDb) (meId aid : Id)
    (mark place points notes : String) : SaveResultOut :=
  let payloadMark := if jsTrim mark == "" then none else some (jsTrim mark)
  let payloadPlace := normalizeNumeric place
  let payloadPoints := normalizeNumeric points
  let payloadNotes := if jsTrim notes == "" then none else some (jsTrim notes)
  match dbInsertResult db meId aid payloadMark payloadPlace payloadPoints
      payloadNotes with
  | Except.ok db' => SaveResultOut.saved db'
  | Except.error e =>
      if isDuplicateResultError e.code e.msg then
        SaveResultOut.failed duplicateResultMessage db
      else
        SaveResultOut.failed
          (if e.msg == "" then fallbackSaveMessage else e.msg) db

/-- `deleteResult` from `src/unnamed/part_012` (lines 447–459):
`.delete().eq("id", id)`. -/
def deleteResult (db : ResultsDb) (id : Nat) : ResultsDb :=
  ⟨db.rows.filter (fun r => !(r.id == id)), db.nextId⟩

/-- **C3.** For a pair with no existing Result row, the first `saveResult`
stores the (trimmed) mark; every subsequent `saveResult` for the same pair
fails with the specific duplicate-result error and leaves the table (hence
the stored mark) unchanged; after `deleteResult` removes the stored row, a
new `saveResult` succeeds again. -/
theorem createResult_duplicate_cycle (db : ResultsDb) (meId aid : Id)
    (mark place points notes : String)
    (hfree : db.rows.any (isResultPairRow meId aid) = false)
    (hid : ∀ r ∈ db.rows, r.id < db.nextId) :
    ∃ db1, saveResult db meId aid mark place points notes =
        SaveResultOut.saved db1 ∧
      (db1.rows.filter (isResultPairRow meId aid)).map (fun r => r.mark) =
        [if jsTrim mark == "" then none else some (jsTrim mark)] ∧
      (∀ m2 p2 q2 n2, saveResult db1 meId aid m2 p2 q2 n2 =
        SaveResultOut.failed duplicateResultMessage db1) ∧
      (∀ m3 p3 q3 n3, ∃ db2,
        saveResult (deleteResult db1 db.nextId) meId aid m3 p3 q3 n3 =
          SaveResultOut.saved db2) := by
  classical
  set newRow : ResultRow :=
    ⟨db.nextId, meId, aid,
     if jsTrim mark == "" then none else some (jsTrim mark),
     normalizeNumeric place, normalizeNumeric points,
     if jsTrim notes == "" then none else some (jsTrim notes)⟩ with hnew
  have hpairNew : isResultPairRow meId aid newRow = true := by
    simp [isResultPairRow, hnew]
  have hnomatch : ∀ r ∈ db.rows, isResultPairRow meId aid r = false := by
    intro r hr
    by_cases h : isResultPairRow meId aid r = true
    · exfalso
      have : db.rows.any (isResultPairRow meId aid) = true :=
        List.any_eq_true.mpr ⟨r, hr, h⟩
      rw [this] at hfree; cases hfree
    · simpa using h
  refine ⟨⟨db.rows ++ [newRow], db.nextId + 1⟩, ?_, ?_, ?_, ?_⟩
  · simp [saveResult, dbInsertResult, hfree, hnew]
  · have hfilter : db.rows.filter (isResultPairRow meId aid) = [] := by
      rw [List.filter_eq_nil_iff]
      intro r hr
      simp [hnomatch r hr]
    simp [List.filter_append, hfilter, hpairNew]
  · intro m2 p2 q2 n2
    have hdup : (db.rows ++ [newRow]).any (isResultPairRow meId aid) = true :=
      List.any_eq_true.mpr ⟨newRow, by simp, hpairNew⟩
    have hclass : isDuplicateResultError uniqueViolationErr.code
        uniqueViolationErr.msg = true := by
      simp [isDuplicateResultError, uniqueViolationErr]
    simp [saveResult, dbInsertResult, hdup, hclass]
  · intro m3 p3 q3 n3
    have hdel : deleteResult ⟨db.rows ++ [newRow], db.nextId + 1⟩ db.nextId =
        ⟨db.rows, db.nextId + 1⟩ := by
      unfold deleteResult
      simp only [List.filter_append]
      have h1 : db.rows.filter (fun r => !(r.id == db.nextId)) = db.rows := by
        rw [List.filter_eq_self]
        intro r hr
        have := hid r hr
        simp [Nat.ne_of_lt this]
      have h2 : [newRow].filter (fun r => !(r.id == db.nextId)) = [] := by
        simp [hnew]
      rw [h1, h2, List.append_nil]
    rw [hdel]
    exact ⟨⟨db.rows ++ [⟨db.nextId + 1, meId, aid,
        if jsTrim m3 == "" then none else some (jsTrim m3),
        normalizeNumeric p3, normalizeNumeric q3,
        if jsTrim n3 == "" then none else some (jsTrim n3)⟩],
      db.nextId + 2⟩, by simp [saveResult, dbInsertResult, hfree]⟩

/-- Witness for C3: the whole cycle on an initially empty table, with
concrete marks. -/
theorem createResult_duplicate_cycle_witness :
    ∃ db1, saveResult ⟨[], 0⟩ "me1" "a1" "10.90" "" "" "" =
        SaveResultOut.saved db1 ∧
      (db1.rows.filter (isResultPairRow "me1" "a1")).map (fun r => r.mark) =
        [if jsTrim "10.90" == "" then none else some (jsTrim "10.90")] ∧
      (∀ m2 p2 q2 n2, saveResult db1 "me1" "a1" m2 p2 q2 n2 =
        SaveResultOut.failed duplicateResultMessage db1) ∧
      (∀ m3 p3 q3 n3, ∃ db2,
        saveResult (deleteResult db1 0) "me1" "a1" m3 p3 q3 n3 =
          SaveResultOut.saved db2) :=
  createResult_duplicate_cycle ⟨[], 0⟩ "me1" "a1" "10.90" "" "" ""
    (by decide) (by intro r hr; cases hr)

/-- Counterexample to C9 as stated: the non-empty, non-numeric `place` input
`"abc"` is not rejected — the save proceeds to the storage call and stores
`place` as null. -/
theorem nonNumeric_place_reaches_storage :
    saveResult ⟨[], 0⟩ "me1" "a1" "10.90" "abc" "" "" =
      SaveResultOut.saved
        ⟨[⟨0, "me1", "a1", some "10.90", none, none, none⟩], 1⟩ := by
  decide

/-- **C9 (amended).** An empty-string `place`/`points` input is normalized to
absent (null), not zero; and a non-empty input that JS `Number` does not read
as a finite number is likewise silently normalized to absent — the save is
not rejected: the storage call still proceeds (and succeeds when the pair is
free). -/
theorem place_points_normalization (db : ResultsDb) (meId aid : Id)
    (mark s notes : String)
    (hfree : db.rows.any (isResultPairRow meId aid) = false) :
    (jsTrim s = "" → normalizeNumeric s = none) ∧
    (jsFiniteNumber s = none → normalizeNumeric s = none) ∧
    ∃ db1, saveResult db meId aid mark s s notes =
      SaveResultOut.saved db1 := by
  refine ⟨?_, ?_, ?_⟩
  · intro h
    simp [normalizeNumeric, h]
  · intro h
    unfold normalizeNumeric
    by_cases h' : jsTrim s == "" <;> simp [h', h]
  · exact ⟨⟨db.rows ++ [⟨db.nextId, meId, aid,
        if jsTrim mark == "" then none else some (jsTrim mark),
        normalizeNumeric s, normalizeNumeric s,
        if jsTrim notes == "" then none else some (jsTrim notes)⟩],
      db.nextId + 1⟩, by simp [saveResult, dbInsertResult, hfree]⟩

/-- Witness for C9 (amended): concrete empty table, empty `place` and
non-numeric `points`. -/
theorem place_points_normalization_witness :
    (jsTrim "" = "" → normalizeNumeric "" = none) ∧
    (jsFiniteNumber "" = none → normalizeNumeric "" = none) ∧
    ∃ db1, saveResult ⟨[], 0⟩ "me1" "a1" "12.3" "" "" "notes" =
      SaveResultOut.saved db1 :=
  place_points_normalization ⟨[], 0⟩ "me1" "a1" "12.3" "" "notes" (by decide)

/-! ## C6 — account update (`app/api/admin/accounts/update/route.ts`)

The request body's optional nullable fields (`z....nullable().optional()`)
are three-valued: absent, explicit null, or a value.  The route copies each
field that is present (`!== undefined`) into the update payload; for gender
it stores `effectiveRole === "athlete" ? gender : null`, where
`effectiveRole = role ?? null` is taken from the request body alone — not
from the profile row being updated. -/

/-- A `.nullable().optional()` request field: `none` = absent,
`some none` = explicit null, `some (some v)` = a value. -/
abbrev Patch (α : Type) := Option (Option α)

/-- The parsed body of the account-update request. -/
structure UpdateBody where
  user_id : Id
  full_name : Patch String
  email : Patch String
  phone : Patch String
  role : Patch Role
  gender : Patch Gender
deriving DecidableEq, Repr

/-- The `updatePayload` built by the route: each present field is copied;
gender is kept only when the request's own role field is the value
`"athlete"`, and nulled otherwise. -/
structure UpdatePayload where
  full_name : Patch String
  email : Patch String
  phone : Patch String
  role : Patch Role
  gender : Patch Gender
deriving DecidableEq, Repr

/-- Lines 44–54 of the update route. -/
def buildUpdatePayload (b : UpdateBody) : UpdatePayload :=
  { full_name := b.full_name
    email := b.email
    phone := b.phone
    role := b.role
    gender :=
      match b.gender with
      | none => none
      | some g =>
          some (if b.role = some (some Role.athlete) then g else none) }

/-- Apply one payload entry to a stored column: a present entry overwrites
(with null or a value); an absent entry leaves the column unchanged. -/
def applyPatch {α : Type} (cur : Option α) (p : Patch α) : Option α :=
  p.getD cur

/-- The profile row after the route's
`.update(updatePayload).eq("user_id", user_id)`. -/
def applyUpdate (p : Profile) (pay : UpdatePayload) : Profile :=
  { p with
    full_name := applyPatch p.full_name pay.full_name
    email := applyPatch p.email pay.email
    phone := applyPatch p.phone pay.phone
    role := applyPatch p.role pay.role
    gender := applyPatch p.gender pay.gender }

/-- Counterexample to C6 as stated: updating an athlete's profile with a
supplied gender but no role field leaves the resulting role athlete yet
stores gender null — the supplied value is not stored. -/
theorem update_gender_nulled_for_athlete :
    (applyUpdate
        ⟨"u1", some "Ath", some Role.athlete, some Gender.male, none, none⟩
        (buildUpdatePayload
          ⟨"u1", none, none, none, none, some (some Gender.female)⟩)).role =
      some Role.athlete ∧
    (applyUpdate
        ⟨"u1", some "Ath", some Role.athlete, some Gender.male, none, none⟩
        (buildUpdatePayload
          ⟨"u1", none, none, none, none, some (some Gender.female)⟩)).gender =
      none := by
  decide

/-- **C6 (amended).** In the account update, a supplied gender value is
stored exactly when the same request's role field is the value athlete; a
supplied gender with the request role absent, null, or non-athlete is
silently stored as null; and when no gender is supplied the stored gender is
left unchanged (even if the resulting role is not athlete). -/
theorem update_gender_rule (p : Profile) (b : UpdateBody) :
    (b.gender = none →
      (applyUpdate p (buildUpdatePayload b)).gender = p.gender) ∧
    (∀ g, b.gender = some g → b.role = some (some Role.athlete) →
      (applyUpdate p (buildUpdatePayload b)).gender = g) ∧
    (∀ g, b.gender = some g → b.role ≠ some (some Role.athlete) →
      (applyUpdate p (buildUpdatePayload b)).gender = none) := by
  refine ⟨?_, ?_, ?_⟩
  · intro h
    simp [applyUpdate, buildUpdatePayload, applyPatch, h]
  · intro g h hrole
    simp [applyUpdate, buildUpdatePayload, applyPatch, h, hrole]
  · intro g h hrole
    simp [applyUpdate, buildUpdatePayload, applyPatch, h, hrole]

/-- Witness for C6 (amended): a request that changes the role to coach and
supplies a gender stores gender null. -/
theorem update_gender_rule_witness :
    (applyUpdate
        ⟨"u2", some "Someone", some Role.athlete, some Gender.female, none, none⟩
        (buildUpdatePayload
          ⟨"u2", none, none, none, some (some Role.coach),
           some (some Gender.female)⟩)).gender = none :=
  (update_gender_rule
      ⟨"u2", some "Someone", some Role.athlete, some Gender.female, none, none⟩
      ⟨"u2", none, none, none, some (some Role.coach),
       some (some Gender.female)⟩).2.2 (some Gender.female) rfl (by decide)

/-! ### Trim idempotence

`zod`'s `.trim()` on the server re-trims strings the client already trimmed;
the following lemmas show re-trimming is the identity. -/

theorem getLast?_dropWhile (p : Char → Bool) (l : List Char)
    (h : l.dropWhile p ≠ []) : (l.dropWhile p).getLast? = l.getLast? := by
  induction l with
  | nil => simp at h
  | cons c cs ih =>
      by_cases hc : p c = true
      · rw [List.dropWhile_cons, if_pos hc] at h ⊢
        rw [ih h]
        cases hcs : cs with
        | nil => rw [hcs] at h; simp at h
        | cons d ds => rw [List.getLast?_cons_cons]
      · rw [List.dropWhile_cons, if_neg hc]

theorem dropWhile_head_prop (p : Char → Bool) (l : List Char) (a : Char)
    (as : List Char) (h : l.dropWhile p = a :: as) : p a = false := by
  induction l with
  | nil => simp at h
  | cons c cs ih =>
      rw [List.dropWhile_cons] at h
      by_cases hc : p c = true
      · rw [if_pos hc] at h; exact ih h
      · rw [if_neg hc] at h
        cases h
        simpa using hc

theorem trimChars_no_leading (cs : List Char) :
    (trimChars cs).dropWhile Char.isWhitespace = trimChars cs := by
  unfold trimChars
  cases hB : (cs.dropWhile Char.isWhitespace).reverse.dropWhile
      Char.isWhitespace with
  | nil => simp
  | cons b bs =>
      have hBne : (cs.dropWhile Char.isWhitespace).reverse.dropWhile
          Char.isWhitespace ≠ [] := by
        rw [hB]; simp
      have hlast : ((cs.dropWhile Char.isWhitespace).reverse.dropWhile
          Char.isWhitespace).getLast? =
          (cs.dropWhile Char.isWhitespace).reverse.getLast? :=
        getLast?_dropWhile _ _ hBne
      rw [List.getLast?_reverse] at hlast
      have hAne : cs.dropWhile Char.isWhitespace ≠ [] := by
        intro hA
        rw [hA] at hBne
        simp at hBne
      cases hA : cs.dropWhile Char.isWhitespace with
      | nil => exact absurd hA hAne
      | cons a as =>
          have hwa : Char.isWhitespace a = false :=
            dropWhile_head_prop _ cs a as hA
          have hheadt : ((b :: bs).reverse).head? = some a := by
            rw [List.head?_reverse, ← hB, hlast, hA]
            rfl
          cases ht : (b :: bs).reverse with
          | nil => rw [ht] at hheadt; cases hheadt
          | cons x xs =>
              rw [ht] at hheadt
              have hx : x = a := by simpa using hheadt
              rw [List.dropWhile_cons, if_neg (by rw [hx, hwa]; simp)]

theorem trimChars_idem (cs : List Char) :
    trimChars (trimChars cs) = trimChars cs := by
  have h1 : trimChars (trimChars cs) =
      (((trimChars cs).dropWhile Char.isWhitespace).reverse.dropWhile
        Char.isWhitespace).reverse := rfl
  rw [h1, trimChars_no_leading cs]
  have h2 : (trimChars cs).reverse =
      (cs.dropWhile Char.isWhitespace).reverse.dropWhile Char.isWhitespace := by
    rw [trimChars, List.reverse_reverse]
  rw [h2, List.dropWhile_idempotent, ← h2, List.reverse_reverse]

theorem jsTrim_idem (s : String) : jsTrim (jsTrim s) = jsTrim s := by
  unfold jsTrim
  exact congrArg String.mk (trimChars_idem s.data)

/-! ## Accounts — shared state, creation (C7)

The account lifecycle routes act on the hosted auth users and the `profiles`
table; assignments and results are carried along to state frame properties.
Creation is the composition of the client-side validation in
`AccountsClient.createAccount` (which runs before the fetch to
`/api/admin/accounts/create`) with that route's handler. -/

/-- A hosted auth user: principal id, email, and the ban timestamp
(`banned_until`, milliseconds). -/
structure AuthUser where
  id : Id
  email : String
  banned_until : Option Nat
deriving DecidableEq, Repr

/-- The state the account routes act on. -/
structure PortalState where
  authUsers : List AuthUser
  profiles : List Profile
  assignments : List AssignmentRow
  results : List ResultRow
  nextUid : Nat
deriving DecidableEq, Repr

/-- A character admissible in the client email regex `[^\s@]`. -/
def isEmailChar (c : Char) : Bool := !c.isWhitespace && !(c == '@')

/-- Split a character list on `'@'`. -/
def splitAtSign (cs : List Char) : List (List Char) :=
  cs.foldr (fun c acc =>
    match acc with
    | [] => [[c]]
    | seg :: rest =>
        if c == '@' then [] :: (seg :: rest) else (c :: seg) :: rest) [[]]

/-- `isValidEmail` from `AccountsClient.tsx`: the regex
`^[^\s@]+@[^\s@]+\.[^\s@]+$` — one `'@'` splitting a nonempty local part
from a domain that contains a `'.'` with at least one admissible character
on each side, no whitespace or second `'@'` anywhere.  (The same predicate
stands in for `zod`'s `.email()` check of the server route.) -/
def isValidEmail (email : String) : Bool :=
  match splitAtSign email.data with
  | [localPart, domain] =>
      !localPart.isEmpty && localPart.all isEmailChar &&
      domain.all isEmailChar &&
      (domain.drop 1).dropLast.any (fun c => c == '.')
  | _ => false

/-- The JSON body `AccountsClient.createAccount` posts to the create
route. -/
structure CreateRequest where
  full_name : String
  email : String
  phone : Option String
  password : String
  role : Role
  gender : Option Gender
deriving DecidableEq, Repr

/-- Client-side outcome: a validation error surfaced before any request is
sent, or the request that is posted. -/
inductive ClientCheck where
  | clientError (msg : String)
  | requested (req : CreateRequest)
deriving DecidableEq, Repr

/-- The create form state (`gender` is `""` or a value in the source;
modelled as an `Option`). -/
structure CreateForm where
  fullName : String
  email : String
  phone : String
  password : String
  newRole : Role
  gender : Option Gender
deriving DecidableEq, Repr

/-- `createAccount` of `AccountsClient.tsx` (lines 128–158) up to the fetch:
the field validations, in source order, and the posted body. -/
def createAccountClient (f : CreateForm) : ClientCheck :=
  let fn := jsTrim f.fullName
  let em := jsTrim f.email
  let ph := jsTrim f.phone
  let pw := f.password
  if fn == "" then ClientCheck.clientError "Name is required."
  else if em == "" then ClientCheck.clientError "Email is required."
  else if !(isValidEmail em) then
    ClientCheck.clientError "Please enter a valid email address."
  else if pw == "" || pw.length < 6 then
    ClientCheck.clientError "Password must be at least 6 characters."
  else if f.newRole == Role.athlete && f.gender.isNone then
    ClientCheck.clientError "Gender is required for athlete accounts."
  else
    ClientCheck.requested
      ⟨fn, em, if ph == "" then none else some ph, pw, f.newRole, f.gender⟩

/-- `profiles` upsert with `onConflict: "user_id"`: replace the conflicting
row, or append. -/
def upsertProfile (profiles : List Profile) (prof : Profile) : List Profile :=
  if profiles.any (fun p => p.user_id == prof.user_id) then
    profiles.map (fun p => if p.user_id == prof.user_id then prof else p)
  else profiles ++ [prof]

/-- The create route (`app/api/admin/accounts/create/route.ts`): `zod` body
validation (trimmed nonempty name, valid email, password of length ≥ 6),
gender normalization `role === "athlete" ? (gender ?? null) : null`,
auth-user creation with a fresh id, and the profile upsert.  (The rollback
branch for a failed profile write is unreachable in this pure model: the
list upsert cannot fail.) -/
def serverCreateAccount (st : PortalState) (req : CreateRequest) :
    Except String (Id × PortalState) :=
  if jsTrim req.full_name == "" then Except.error "Invalid request body."
  else if !(isValidEmail (jsTrim req.email)) then
    Except.error "Invalid request body."
  else if req.password.length < 6 then Except.error "Invalid request body."
  else
    let normalizedGender :=
      if req.role == Role.athlete then req.gender else none
    let uid := "u" ++ toString st.nextUid
    let au : AuthUser := ⟨uid, jsTrim req.email, none⟩
    let prof : Profile := ⟨uid, some (jsTrim req.full_name), some req.role,
      normalizedGender, some (jsTrim req.email), req.phone⟩
    Except.ok (uid, { st with
      authUsers := st.authUsers ++ [au],
      profiles := upsertProfile st.profiles prof,
      nextUid := st.nextUid + 1 })

/-- Overall outcome of an account creation as the caller sees it. -/
inductive CreateOutcome where
  | validationError (msg : String)
  | success (user_id : Id)
  | serverError (msg : String)
deriving DecidableEq, Repr

/-- The composed create flow: client validation, then the route.  A client
validation error is surfaced before any request (hence before any storage
call) and leaves the state untouched. -/
def createAccount (st : PortalState) (f : CreateForm) :
    CreateOutcome × PortalState :=
  match createAccountClient f with
  | ClientCheck.clientError m => (CreateOutcome.validationError m, st)
  | ClientCheck.requested req =>
      match serverCreateAccount st req with
      | Except.error m => (CreateOutcome.serverError m, st)
      | Except.ok (uid, st') => (CreateOutcome.success uid, st')

theorem mem_upsertProfile (profiles : List Profile) (prof : Profile) :
    prof ∈ upsertProfile profiles prof := by
  unfold upsertProfile
  by_cases h : profiles.any (fun p => p.user_id == prof.user_id) = true
  · rw [if_pos h]
    obtain ⟨p0, hp0, hid⟩ := List.any_eq_true.mp h
    exact List.mem_map.mpr ⟨p0, hp0, by simp [hid]⟩
  · rw [if_neg h]
    simp

/-- **C7.** With otherwise-valid inputs, creating an account with role
athlete and no gender value is rejected with the validation error naming
gender, before any storage call (the state is untouched); creating with a
non-athlete role succeeds and the stored profile's gender is null regardless
of any supplied gender value. -/
theorem createAccount_gender (st : PortalState) (f : CreateForm)
    (hfn : jsTrim f.fullName ≠ "")
    (hem : isValidEmail (jsTrim f.email) = true)
    (hpw : 6 ≤ f.password.length) :
    (f.newRole = Role.athlete → f.gender = none →
      createAccount st f =
        (CreateOutcome.validationError "Gender is required for athlete accounts.",
         st)) ∧
    (f.newRole ≠ Role.athlete →
      ∃ uid st', createAccount st f = (CreateOutcome.success uid, st') ∧
        ∃ prof ∈ st'.profiles, prof.user_id = uid ∧ prof.gender = none) := by
  have hemne : (jsTrim f.email == "") = false := by
    by_cases h : jsTrim f.email = ""
    · rw [h] at hem
      exact absurd hem (by decide)
    · simpa using h
  have hfnne : (jsTrim f.fullName == "") = false := by simpa using hfn
  have hpwne : (f.password == "") = false := by
    have : f.password ≠ "" := by
      intro h
      rw [h] at hpw
      simp at hpw
    simpa using this
  have hpwlen : (f.password.length < 6) = False := by
    simp [Nat.not_lt.mpr hpw]
  constructor
  · intro hrole hg
    simp [createAccount, createAccountClient, hfnne, hemne, hem, hpwne,
      Nat.not_lt.mpr hpw, hrole, hg]
  · intro hrole
    have hroleb : (f.newRole == Role.athlete) = false := by
      simpa using hrole
    have hclient : createAccountClient f = ClientCheck.requested
        ⟨jsTrim f.fullName, jsTrim f.email,
         if jsTrim f.phone == "" then none else some (jsTrim f.phone),
         f.password, f.newRole, f.gender⟩ := by
      simp [createAccountClient, hfnne, hemne, hem, hpwne,
        Nat.not_lt.mpr hpw, hroleb]
    have hserver : serverCreateAccount st
        ⟨jsTrim f.fullName, jsTrim f.email,
         if jsTrim f.phone == "" then none else some (jsTrim f.phone),
         f.password, f.newRole, f.gender⟩ =
        Except.ok ("u" ++ toString st.nextUid, { st with
          authUsers := st.authUsers ++
            [⟨"u" ++ toString st.nextUid, jsTrim (jsTrim f.email), none⟩],
          profiles := upsertProfile st.profiles
            ⟨"u" ++ toString st.nextUid, some (jsTrim (jsTrim f.fullName)),
             some f.newRole, none, some (jsTrim (jsTrim f.email)),
             if jsTrim f.phone == "" then none else some (jsTrim f.phone)⟩,
          nextUid := st.nextUid + 1 }) := by
      have h1 : (jsTrim (jsTrim f.fullName) == "") = false := by
        rw [jsTrim_idem]; exact hfnne
      have h2 : isValidEmail (jsTrim (jsTrim f.email)) = true := by
        rw [jsTrim_idem]; exact hem
      simp [serverCreateAccount, h1, h2, Nat.not_lt.mpr hpw, hroleb]
    refine ⟨"u" ++ toString st.nextUid, { st with
        authUsers := st.authUsers ++
          [⟨"u" ++ toString st.nextUid, jsTrim (jsTrim f.email), none⟩],
        profiles := upsertProfile st.profiles
          ⟨"u" ++ toString st.nextUid, some (jsTrim (jsTrim f.fullName)),
           some f.newRole, none, some (jsTrim (jsTrim f.email)),
           if jsTrim f.phone == "" then none else some (jsTrim f.phone)⟩,
        nextUid := st.nextUid + 1 }, ?_, ?_⟩
    · simp only [createAccount, hclient, hserver]
    · exact ⟨⟨"u" ++ toString st.nextUid, some (jsTrim (jsTrim f.fullName)),
        some f.newRole, none, some (jsTrim (jsTrim f.email)),
        if jsTrim f.phone == "" then none else some (jsTrim f.phone)⟩,
        mem_upsertProfile _ _, rfl, rfl⟩

/-- Witness for C7: concrete coach creation with a supplied gender stores
gender null (and a concrete athlete creation without gender is rejected --
exercised through the same theorem instance). -/
theorem createAccount_gender_witness :
    ∃ uid st', createAccount ⟨[], [], [], [], 0⟩
        ⟨"Coach Q", "coach@team.org", "", "secret99", Role.coach,
         some Gender.male⟩ = (CreateOutcome.success uid, st') ∧
      ∃ prof ∈ st'.profiles, prof.user_id = uid ∧ prof.gender = none :=
  (createAccount_gender ⟨[], [], [], [], 0⟩
      ⟨"Coach Q", "coach@team.org", "", "secret99", Role.coach,
       some Gender.male⟩
      (by decide) (by decide) (by decide)).2 (by decide)

/-! ## C8 — account deactivation (`delete` route) and the active listing

The delete route (`app/api/admin/accounts/delete/route.ts`) performs a soft
delete: it only sets `ban_duration: "876000h"` (~100 years) on the auth
user, touching no `profiles`/`assignments`/`results` row.  The list route
(`app/api/admin/accounts/list/route.ts`, first variant, the one the claim
cites) returns the profile rows of the three roles, dropping any whose auth
user has an active ban per `isBannedIndefinitelyOrActiveBan` (a `banned_until`
in the future; an auth-lookup failure keeps the row visible). -/

/-- `"876000h"` in milliseconds. -/
def banDurationMs : Nat := 876000 * 3600000

/-- `isBannedIndefinitelyOrActiveBan` of the list route: a `banned_until`
timestamp strictly in the future counts as banned. -/
def isBannedActive (u : AuthUser) (now : Nat) : Bool :=
  match u.banned_until with
  | none => false
  | some t => decide (now < t)

/-- The delete route's effect: ban the auth user for `876000h` from `now`;
error when the auth user does not exist.  Nothing else is touched. -/
def deactivateAccount (st : PortalState) (uid : Id) (now : Nat) :
    Except String PortalState :=
  match st.authUsers.find? (fun u => u.id == uid) with
  | none => Except.error "User not found"
  | some _ => Except.ok { st with authUsers := st.authUsers.map (fun u =>
      if u.id == uid then { u with banned_until := some (now + banDurationMs) }
      else u) }

/-- The list route's account listing: profile rows of the three roles whose
auth user has no active ban (rows without a readable auth user stay
visible). -/
def listAccounts (st : PortalState) (now : Nat) : List Profile :=
  (st.profiles.filter (fun p =>
    p.role == some Role.coach || p.role == some Role.assistant_coach ||
    p.role == some Role.athlete)).filter (fun p =>
      match st.authUsers.find? (fun u => u.id == p.user_id) with
      | some u => !isBannedActive u now
      | none => true)

/-- Modelled from the spec: the hosted identity provider (outside `src/`)
rejects authentication while a ban set through `ban_duration` is active;
only the ban's effect on sign-in is modelled. -/
def authenticate (st : PortalState) (uid : Id) (now : Nat) : Bool :=
  match st.authUsers.find? (fun u => u.id == uid) with
  | none => false
  | some u => !isBannedActive u now

theorem find?_map_ban (users : List AuthUser) (uid : Id) (b : Nat)
    (u : AuthUser) (h : users.find? (fun v => v.id == uid) = some u) :
    (users.map (fun v => if v.id == uid then
        { v with banned_until := some b } else v)).find?
      (fun v => v.id == uid) = some { u with banned_until := some b } := by
  induction users with
  | nil => simp at h
  | cons w ws ih =>
      by_cases hw : (w.id == uid) = true
      · rw [List.find?_cons_of_pos (p := fun v => v.id == uid) ws hw] at h
        cases h
        simp only [List.map_cons, hw, if_pos]
        exact List.find?_cons_of_pos _ (by simp [hw])
      · rw [List.find?_cons_of_neg (p := fun v => v.id == uid) ws hw] at h
        simp only [List.map_cons]
        rw [if_neg (by simpa using hw)]
        rw [List.find?_cons_of_neg _ (by simpa using hw)]
        exact ih h

/-- Coaching staff read every profile row under the select policy (the
`exists` clause of the policy holds for them on every row). -/
theorem coach_reads_all (table : List Profile) (rid : Id)
    (h : requesterRole table rid = some Role.coach ∨
         requesterRole table rid = some Role.assistant_coach) :
    ∀ p ∈ table, p ∈ profilesSelect table rid := by
  intro p hp
  have hfind : ∃ q, table.find? (fun q => q.user_id == rid) = some q ∧
      (q.role = some Role.coach ∨ q.role = some Role.assistant_coach) := by
    rcases h with h' | h' <;>
    · unfold requesterRole at h'
      cases hf : table.find? (fun q => q.user_id == rid) with
      | some q =>
          refine ⟨q, rfl, ?_⟩
          rw [hf] at h'
          simp at h'
          simp [h']
      | none => rw [hf] at h'; simp at h'
  obtain ⟨q, hq, hqrole⟩ := hfind
  have hqid := List.find?_some hq
  have hany : table.any (fun x =>
      x.user_id == rid &&
        (x.role == some Role.coach || x.role == some Role.assistant_coach)) =
      true := by
    refine List.any_eq_true.mpr ⟨q, List.mem_of_find?_eq_some hq, ?_⟩
    rcases hqrole with h' | h' <;> simp [hqid, h']
  refine List.mem_filter.mpr ⟨hp, ?_⟩
  unfold profilesSelectUsing
  simp [hany]

/-- **C8.** Deactivation is non-destructive: it deletes neither the auth
user nor any Profile/Assignment/Result row; afterwards every such row is
unchanged (and coaching staff still read every profile row), authentication
as the account fails throughout the effectively-permanent ban window, and
the account's profile is absent from the active-accounts listing. -/
theorem deactivate_non_destructive (st : PortalState) (uid : Id) (now : Nat)
    (u : AuthUser) (hu : st.authUsers.find? (fun v => v.id == uid) = some u) :
    ∃ st', deactivateAccount st uid now = Except.ok st' ∧
      st'.profiles = st.profiles ∧
      st'.assignments = st.assignments ∧
      st'.results = st.results ∧
      st'.authUsers.map (fun v => v.id) = st.authUsers.map (fun v => v.id) ∧
      (∀ rid, (requesterRole st'.profiles rid = some Role.coach ∨
          requesterRole st'.profiles rid = some Role.assistant_coach) →
        ∀ p ∈ st'.profiles, p ∈ profilesSelect st'.profiles rid) ∧
      (∀ t, t < now + banDurationMs → authenticate st' uid t = false) ∧
      (∀ p ∈ st'.profiles, p.user_id = uid → p ∉ listAccounts st' now) := by
  refine ⟨{ st with authUsers := st.authUsers.map (fun v =>
      if v.id == uid then { v with banned_until := some (now + banDurationMs) }
      else v) }, ?_, rfl, rfl, rfl, ?_, ?_, ?_, ?_⟩
  · simp [deactivateAccount, hu]
  · rw [List.map_map]
    apply List.map_congr_left
    intro v _
    by_cases hv : v.id = uid <;> simp [hv]
  · intro rid h
    exact coach_reads_all _ rid h
  · intro t ht
    have hfind := find?_map_ban st.authUsers uid (now + banDurationMs) u hu
    simp only [authenticate, hfind, isBannedActive]
    simp [ht]
  · intro p _ hpid
    intro hmem
    have hfind := find?_map_ban st.authUsers uid (now + banDurationMs) u hu
    have hpred := (List.mem_filter.mp hmem).2
    rw [hpid, hfind] at hpred
    simp only [isBannedActive] at hpred
    have hlt : now < now + banDurationMs := by
      have : 0 < banDurationMs := by decide
      omega
    simp [hlt] at hpred

/-- Witness for C8: deactivating a concrete athlete account with an existing
assignment and result. -/
theorem deactivate_non_destructive_witness :
    ∃ st', deactivateAccount
        ⟨[⟨"a1", "a@team.org", none⟩],
         [⟨"a1", some "Ath", some Role.athlete, some Gender.male, none, none⟩],
         [⟨1, "me1", "a1", "assigned"⟩],
         [⟨1, "me1", "a1", some "10.90", none, none, none⟩], 5⟩
        "a1" 1000 = Except.ok st' ∧
      st'.profiles =
        [⟨"a1", some "Ath", some Role.athlete, some Gender.male, none, none⟩] ∧
      st'.assignments = [⟨1, "me1", "a1", "assigned"⟩] ∧
      st'.results = [⟨1, "me1", "a1", some "10.90", none, none, none⟩] ∧
      st'.authUsers.map (fun v => v.id) = ["a1"] ∧
      (∀ rid, (requesterRole st'.profiles rid = some Role.coach ∨
          requesterRole st'.profiles rid = some Role.assistant_coach) →
        ∀ p ∈ st'.profiles, p ∈ profilesSelect st'.profiles rid) ∧
      (∀ t, t < 1000 + banDurationMs → authenticate st' "a1" t = false) ∧
      (∀ p ∈ st'.profiles, p.user_id = "a1" → p ∉ listAccounts st' 1000) :=
  deactivate_non_destructive
    ⟨[⟨"a1", "a@team.org", none⟩],
     [⟨"a1", some "Ath", some Role.athlete, some Gender.male, none, none⟩],
     [⟨1, "me1", "a1", "assigned"⟩],
     [⟨1, "me1", "a1", some "10.90", none, none, none⟩], 5⟩
    "a1" 1000 ⟨"a1", "a@team.org", none⟩ (by decide)

end TrackPortal
